import Mathlib

/-!
Verification of the instagram-hashtag-fetcher program (src/main.py) against its
natural-language specification.

The development is a shallow embedding of the program:

* `Datetime`, `utcfromtimestamp`, `formatDatetime`, `parseDatetime` model the
  Python datetime library functions used by the program
  (datetime.utcfromtimestamp + strftime, datetime.strptime, both with the
  fixed format YYYY-MM-DD HH:MM:SS);
* `convert_timestamp_to_string` models the function of the same name;
* `get_post_from_node` (with `RawNode`, `Post`) models the record extractor;
* `get_posts_step` / `get_posts_run` model the fetch loop of `get_posts` as a
  state machine, with the upstream responses given as a function from fetch
  index to a page or an exception;
* `export_posts` models the exporter.

Exceptions are modelled with `Except PyErr`: a `.error` value marks the point
where the Python code would raise.  The state `FetchState.crashed` marks an
exception that escapes `get_posts` (and hence `main`, which has no handler).
-/

/-- The kinds of Python exceptions that the modelled code can raise. -/
inductive PyErr
  | indexError
  | valueError
  | attributeError
deriving DecidableEq, Repr

/-- A Python datetime value at second granularity (naive, as the program uses
them: `strptime` results, `utcfromtimestamp` results and the loop's
`datetime.now()` default).  `datetime.now()` also carries microseconds; the
model works at second granularity, which is the granularity of every datetime
the program compares against it. -/
structure Datetime where
  year : Nat
  month : Nat
  day : Nat
  hour : Nat
  minute : Nat
  second : Nat
deriving DecidableEq, Repr

/-- Python comparison of datetime values: lexicographic on
(year, month, day, hour, minute, second). -/
def Datetime.ltb (a b : Datetime) : Bool :=
  if a.year < b.year then true
  else if b.year < a.year then false
  else if a.month < b.month then true
  else if b.month < a.month then false
  else if a.day < b.day then true
  else if b.day < a.day then false
  else if a.hour < b.hour then true
  else if b.hour < a.hour then false
  else if a.minute < b.minute then true
  else if b.minute < a.minute then false
  else decide (a.second < b.second)

/-- The smallest timestamp `datetime.utcfromtimestamp` accepts
(0001-01-01 00:00:00 UTC). -/
def minTimestamp : Int := -62135596800

/-- The largest timestamp `datetime.utcfromtimestamp` accepts
(9999-12-31 23:59:59 UTC; the fractional part is irrelevant at second
granularity). -/
def maxTimestamp : Int := 253402300799

/-- Days-to-civil-date conversion (proleptic Gregorian calendar, as Python's
datetime uses).  `days1` counts days since 0001-01-01.  Auxiliary quantity:
days since 0000-03-01. -/
def cfdZ (days1 : Nat) : Nat := days1 + 306

/-- Day within the 400-year era. -/
def cfdDoe (days1 : Nat) : Nat := cfdZ days1 % 146097

/-- Year within the 400-year era (0..399), for years starting March 1. -/
def cfdYoe (days1 : Nat) : Nat :=
  (cfdDoe days1 - cfdDoe days1 / 1460 + cfdDoe days1 / 36524 - cfdDoe days1 / 146096) / 365

/-- Day of the March-first year (0..365). -/
def cfdDoy (days1 : Nat) : Nat :=
  cfdDoe days1 - (365 * cfdYoe days1 + cfdYoe days1 / 4 - cfdYoe days1 / 100)

/-- Month index in the March-first year (0 = March .. 11 = February). -/
def cfdMp (days1 : Nat) : Nat := (5 * cfdDoy days1 + 2) / 153

/-- Day of month (1..31). -/
def cfdDay (days1 : Nat) : Nat := cfdDoy days1 - (153 * cfdMp days1 + 2) / 5 + 1

/-- Calendar month (1..12). -/
def cfdMonth (days1 : Nat) : Nat :=
  if cfdMp days1 < 10 then cfdMp days1 + 3 else cfdMp days1 - 9

/-- Calendar year. -/
def cfdYear (days1 : Nat) : Nat :=
  cfdYoe days1 + cfdZ days1 / 146097 * 400 + (if cfdMonth days1 ≤ 2 then 1 else 0)

/-- Model of `datetime.utcfromtimestamp`: maps a Unix timestamp (whole
seconds) to the corresponding UTC calendar datetime, raising ValueError when
the result falls outside the supported datetime range (years 1..9999). -/
def utcfromtimestamp (ts : Int) : Except PyErr Datetime :=
  if ts < minTimestamp ∨ maxTimestamp < ts then .error .valueError
  else
    let total := (ts - minTimestamp).toNat
    let days1 := total / 86400
    let sod := total % 86400
    .ok ⟨cfdYear days1, cfdMonth days1, cfdDay days1,
         sod / 3600, sod % 3600 / 60, sod % 60⟩

/-- Decimal digit to character. -/
def digitChar (n : Nat) : Char := Char.ofNat (48 + min n 9)

/-- Character to decimal digit, as the strptime regular expressions read
digits; non-digits give `none`. -/
def digitVal (c : Char) : Option Nat :=
  if '0' ≤ c ∧ c ≤ '9' then some (c.toNat - 48) else none

/-- Two-digit zero-padded rendering, as strftime renders %m %d %H %M %S. -/
def pad2 (n : Nat) : List Char := [digitChar (n / 10), digitChar (n % 10)]

/-- Year rendering of strftime %Y: the decimal digits, with no padding
(glibc behaviour; years of this program are rendered from valid datetimes, so
at most four digits). -/
def yearChars (y : Nat) : List Char :=
  if 1000 ≤ y then
    [digitChar (y / 1000), digitChar (y / 100 % 10), digitChar (y / 10 % 10), digitChar (y % 10)]
  else if 100 ≤ y then [digitChar (y / 100), digitChar (y / 10 % 10), digitChar (y % 10)]
  else if 10 ≤ y then [digitChar (y / 10), digitChar (y % 10)]
  else [digitChar y]

/-- Model of `datetime.strftime` with the program's fixed format
`%Y-%m-%d %H:%M:%S`. -/
def formatDatetime (dt : Datetime) : String :=
  ⟨yearChars dt.year ++ '-' :: (pad2 dt.month ++ '-' :: (pad2 dt.day ++
    ' ' :: (pad2 dt.hour ++ ':' :: (pad2 dt.minute ++ ':' :: pad2 dt.second))))⟩

/-- Model of src/main.py `convert_timestamp_to_string`: empty string for a
missing timestamp, otherwise utcfromtimestamp + strftime (which raises for
timestamps outside datetime's range). -/
def convert_timestamp_to_string (ts : Option Int) : Except PyErr String :=
  match ts with
  | none => .ok ""
  | some t => (utcfromtimestamp t).map formatDatetime

/-- Combines the fourteen digit values read by `parseDatetime` into a
datetime, applying the numeric range checks of the strptime regular
expressions; `none` when any character was not a digit. -/
def parseFields (o1 o2 o3 o4 p1 p2 q1 q2 a1 a2 b1 b2 e1 e2 : Option Nat) : Option Datetime :=
  match o1, o2, o3, o4, p1, p2, q1, q2, a1, a2, b1, b2, e1, e2 with
  | some v1, some v2, some v3, some v4, some w1, some w2, some x1, some x2,
    some u1, some u2, some t1, some t2, some r1, some r2 =>
    if 1 ≤ 10 * w1 + w2 ∧ 10 * w1 + w2 ≤ 12 ∧ 1 ≤ 10 * x1 + x2 ∧ 10 * x1 + x2 ≤ 31 ∧
       10 * u1 + u2 ≤ 23 ∧ 10 * t1 + t2 ≤ 59 ∧ 10 * r1 + r2 ≤ 59 then
      some ⟨1000 * v1 + 100 * v2 + 10 * v3 + v4, 10 * w1 + w2, 10 * x1 + x2,
            10 * u1 + u2, 10 * t1 + t2, 10 * r1 + r2⟩
    else none
  | _, _, _, _, _, _, _, _, _, _, _, _, _, _ => none

/-- The character-level part of the strptime model: a match requires exactly
19 characters with the three delimiters in place and digits elsewhere. -/
def parseChars (l : List Char) : Option Datetime :=
  match l with
  | [y1, y2, y3, y4, c1, m1, m2, c2, d1, d2, c3, h1, h2, c4, n1, n2, c5, s1, s2] =>
    if c1 = '-' ∧ c2 = '-' ∧ c3 = ' ' ∧ c4 = ':' ∧ c5 = ':' then
      parseFields (digitVal y1) (digitVal y2) (digitVal y3) (digitVal y4)
        (digitVal m1) (digitVal m2) (digitVal d1) (digitVal d2)
        (digitVal h1) (digitVal h2) (digitVal n1) (digitVal n2)
        (digitVal s1) (digitVal s2)
    else none
  | _ => none

/-- Model of `datetime.strptime` with the fixed format `%Y-%m-%d %H:%M:%S`,
following CPython's _strptime regular expressions: %Y is exactly four digits,
the other fields are two digits here (their one-digit alternatives cannot
match a zero-padded string followed by a delimiter), with the numeric ranges
the regular expressions impose.  The datetime constructor's day-of-month
validation is omitted: the program only ever reparses strings produced by
`formatDatetime`, which are calendar-valid, so the omission is not observable
in this development. -/
def parseDatetime (s : String) : Option Datetime := parseChars s.toList

/-- A scalar value of a Post Record field, as Python holds them: None, a
string, or an integer. -/
inductive PyVal
  | null
  | str (s : String)
  | int (n : Int)
deriving DecidableEq, Repr

def optStr (o : Option String) : PyVal :=
  match o with
  | none => .null
  | some s => .str s

def optInt (o : Option Int) : PyVal :=
  match o with
  | none => .null
  | some n => .int n

/-- An entry of edge_media_to_caption.edges: a dict that may carry a
"node" key. -/
structure CaptionNode where
  text : Option String
deriving DecidableEq, Repr

structure CaptionEdge where
  node : Option CaptionNode
deriving DecidableEq, Repr

/-- The edge_media_to_caption dict: its "edges" key may be absent. -/
structure CaptionStruct where
  edges : Option (List CaptionEdge)
deriving DecidableEq, Repr

structure OwnerStruct where
  id : Option String
deriving DecidableEq, Repr

structure CountStruct where
  count : Option Int
deriving DecidableEq, Repr

/-- A Raw Node of the upstream response: each expected field may be absent
(Python reads them with dict.get and a default). -/
structure RawNode where
  id : Option String
  owner : Option OwnerStruct
  taken_at_timestamp : Option Int
  typename : Option String
  edge_media_to_comment : Option CountStruct
  edge_liked_by : Option CountStruct
  video_view_count : Option Int
  shortcode : Option String
  edge_media_to_caption : Option CaptionStruct
deriving DecidableEq, Repr

/-- A Post Record.  created_time is always a string (possibly empty), the
other eight fields are scalars or null, exactly as `get_post_from_node`
builds the dict. -/
structure Post where
  id : PyVal
  owner_id : PyVal
  created_time : String
  typename : PyVal
  comment_count : PyVal
  like_count : PyVal
  video_view_count : PyVal
  shortcode : PyVal
  caption : PyVal
deriving DecidableEq, Repr

/-- The dict literal of `get_post_from_node` in source order: Python dicts
preserve insertion order, so the key order of every record of a run is this
fixed list. -/
def Post.toPairs (p : Post) : List (String × PyVal) :=
  [("id", p.id), ("owner_id", p.owner_id), ("created_time", .str p.created_time),
   ("typename", p.typename), ("comment_count", p.comment_count),
   ("like_count", p.like_count), ("video_view_count", p.video_view_count),
   ("shortcode", p.shortcode), ("caption", p.caption)]

/-- The caption lookup of src/main.py lines 40-45:
node.get("edge_media_to_caption", dict()).get("edges", [dict()])[0]
.get("node", dict()).get("text", None).  When "edges" is present and an
empty list, the [0] subscript raises IndexError. -/
def getCaption (n : RawNode) : Except PyErr PyVal :=
  let edges : List CaptionEdge :=
    match n.edge_media_to_caption with
    | none => [{ node := none }]
    | some c =>
      match c.edges with
      | none => [{ node := none }]
      | some l => l
  match edges with
  | [] => .error .indexError
  | e :: _ =>
    match e.node with
    | none => .ok .null
    | some cn => .ok (optStr cn.text)

/-- Model of src/main.py `get_post_from_node`.  The two lookups that can
raise are evaluated in Python's order: created_time (utcfromtimestamp of an
out-of-range timestamp raises ValueError) before the caption subscript
(IndexError on a present-but-empty edges list). -/
def get_post_from_node (n : RawNode) : Except PyErr Post := do
  let created ← convert_timestamp_to_string n.taken_at_timestamp
  let caption ← getCaption n
  .ok { id := optStr n.id,
        owner_id := optStr (n.owner.bind OwnerStruct.id),
        created_time := created,
        typename := optStr n.typename,
        comment_count := optInt (n.edge_media_to_comment.bind CountStruct.count),
        like_count := optInt (n.edge_liked_by.bind CountStruct.count),
        video_view_count := optInt n.video_view_count,
        shortcode := optStr n.shortcode,
        caption := caption }

/-- An element of the edges list of a page: a dict whose "node" key may be
absent; `edge.get("node")` then yields None and `get_post_from_node(None)`
raises AttributeError at its first .get call. -/
structure RawEdge where
  node : Option RawNode
deriving DecidableEq, Repr

def extractEdge (e : RawEdge) : Except PyErr Post :=
  match e.node with
  | none => .error .attributeError
  | some n => get_post_from_node n

/-- One successfully navigated upstream response: the continuation cursor
and the edges list, as read from
data.graphql.hashtag.edge_hashtag_to_media. -/
structure PageData where
  end_cursor : String
  edges : List RawEdge
deriving DecidableEq, Repr

/-- The upstream as the fetch loop observes it: the k-th fetch either raises
somewhere in requests.get / res.json() / the nested subscripts (modelled as
one error) or yields a page. -/
def FetchSeq := Nat → Except PyErr PageData

/-- The fold Python's min performs from the first element: the current
minimum is replaced only when a later element is strictly smaller. -/
def minFold (x : Datetime) (xs : List Datetime) : Datetime :=
  xs.foldl (fun cur nxt => if Datetime.ltb nxt cur then nxt else cur) x

/-- Python's min over a list of datetimes: raises ValueError on an empty
list. -/
def pyMin (l : List Datetime) : Except PyErr Datetime :=
  match l with
  | [] => .error .valueError
  | x :: xs => .ok (minFold x xs)

/-- Sequential evaluation of a Python list comprehension whose body can
raise: the elements are produced in order and the first exception aborts the
whole comprehension. -/
def exceptMap (f : α → Except PyErr β) : List α → Except PyErr (List β)
  | [] => .ok []
  | x :: xs =>
    match f x with
    | .error e => .error e
    | .ok y =>
      match exceptMap f xs with
      | .error e => .error e
      | .ok ys => .ok (y :: ys)

/-- datetime.strptime(created_time, DATETIME_FORMAT) as the loop applies it:
a parse failure is a ValueError.  The preceding isinstance(..., str) filter
of the list comprehension keeps every record, because created_time is always
a string. -/
def parsePostTime (p : Post) : Except PyErr Datetime :=
  match parseDatetime p.created_time with
  | some dt => .ok dt
  | none => .error .valueError

/-- The state of the while loop of `get_posts`: `running` carries all_posts,
end_cursor, earliest_datetime_so_far and the number of fetches performed;
`done` is a break out of the loop (the function then returns the accumulated
list); `crashed` is an exception raised outside the try block, which escapes
`get_posts` and `main`. -/
inductive FetchState
  | running (all_posts : List Post) (end_cursor : String) (earliest : Datetime) (fetched : Nat)
  | done (result : List Post)
  | crashed (e : PyErr)
deriving DecidableEq, Repr

/-- One iteration of the while loop of src/main.py `get_posts` (lines
80-127).  The guard min_datetime < earliest_datetime_so_far is evaluated at
loop top; the try block covers the fetch, the JSON navigation and the
extraction of every edge of the page (any exception there prints and
breaks); the empty-page check breaks; then all_posts += posts, and the
strptime comprehension plus min - both outside the try - recompute
earliest_datetime_so_far from the latest page only, crashing the whole
function on an unparseable created_time.  The fixed sleep before cursored
requests has no observable effect in this model and is omitted. -/
def get_posts_step (fetch : FetchSeq) (min_datetime : Datetime) : FetchState → FetchState
  | .running acc _cursor earliest k =>
    if Datetime.ltb min_datetime earliest then
      match fetch k with
      | .error _ => .done acc
      | .ok pd =>
        match exceptMap extractEdge pd.edges with
        | .error _ => .done acc
        | .ok posts =>
          if posts.isEmpty then .done acc
          else
            match exceptMap parsePostTime posts with
            | .error e => .crashed e
            | .ok dts =>
              match pyMin dts with
              | .error e => .crashed e
              | .ok earliest2 => .running (acc ++ posts) pd.end_cursor earliest2 (k + 1)
    else .done acc
  | .done r => .done r
  | .crashed e => .crashed e

/-- The loop after n iterations, started from the initial state of
`get_posts`: all_posts = [], end_cursor = "", earliest_datetime_so_far =
datetime.now() (the parameter `now`), no fetches performed. -/
def get_posts_run (fetch : FetchSeq) (min_datetime now : Datetime) : Nat → FetchState
  | 0 => .running [] "" now 0
  | n + 1 => get_posts_step fetch min_datetime (get_posts_run fetch min_datetime now n)

/-- The records the j-th page contributes when its fetch and the extraction
of all its edges succeed (otherwise nothing is appended). -/
def pagePosts (fetch : FetchSeq) (j : Nat) : List Post :=
  match fetch j with
  | .error _ => []
  | .ok pd =>
    match exceptMap extractEdge pd.edges with
    | .error _ => []
    | .ok posts => posts

/-- The concatenation of the contributions of pages 0..k-1, in page order. -/
def concatPages (fetch : FetchSeq) : Nat → List Post
  | 0 => []
  | k + 1 => concatPages fetch k ++ pagePosts fetch k

/-- A terminal state of the loop: either the function returned (done) or an
exception escaped it (crashed). -/
def FetchState.terminal (s : FetchState) : Prop :=
  (∃ r, s = .done r) ∨ (∃ e, s = .crashed e)

/-- The value a PyVal renders to in the output file: csv.writer writes None
as the empty string and numbers via str. -/
def renderVal (v : PyVal) : String :=
  match v with
  | .null => ""
  | .str s => s
  | .int n => toString n

/-- Model of src/main.py `export_posts` (lines 134-146): with no records it
performs no file write at all (`none`); otherwise it produces the header row
taken from the key order of the first record, then one row of rendered
values per record, in order.  Each inner list is one pipe-delimited line of
the file. -/
def export_posts (posts : List Post) : Option (List (List String)) :=
  match posts with
  | [] => none
  | p :: _ =>
    some ((p.toPairs.map Prod.fst) ::
      posts.map (fun m => m.toPairs.map (fun kv => renderVal kv.2)))

/-- The Raw Node with every expected field absent. -/
def rawNodeEmpty : RawNode := ⟨none, none, none, none, none, none, none, none, none⟩

/-- A node carrying only taken_at_timestamp 1622505600 (2021-06-01 00:00:00
UTC). -/
def nodeA : RawNode := ⟨none, none, some 1622505600, none, none, none, none, none, none⟩

/-- A node carrying only taken_at_timestamp 1625097600 (2021-07-01 00:00:00
UTC). -/
def nodeB : RawNode := ⟨none, none, some 1625097600, none, none, none, none, none, none⟩

def pageA : PageData := ⟨"curA", [⟨some nodeA⟩]⟩

def pageB : PageData := ⟨"curB", [⟨some nodeB⟩]⟩

def postA : Post := ⟨.null, .null, "2021-06-01 00:00:00", .null, .null, .null, .null, .null, .null⟩

def postB : Post := ⟨.null, .null, "2021-07-01 00:00:00", .null, .null, .null, .null, .null, .null⟩

def dtA : Datetime := ⟨2021, 6, 1, 0, 0, 0⟩

def dtB : Datetime := ⟨2021, 7, 1, 0, 0, 0⟩

def minDT0 : Datetime := ⟨2021, 1, 1, 0, 0, 0⟩

def now0 : Datetime := ⟨2022, 1, 1, 0, 0, 0⟩

/-- The fetch sequence whose first page is pageA and whose second fetch
raises. -/
def fetchFailSecond : FetchSeq := fun k => if k = 0 then .ok pageA else .error .valueError

/-- The fetch sequence whose first page is pageA and whose second page has an
edge without a node key: get_post_from_node(None) raises AttributeError
inside the try block. -/
def fetchBadNode : FetchSeq := fun k => if k = 0 then .ok pageA else .ok ⟨"curX", [⟨none⟩]⟩

/-- The upstream that always answers with an empty page. -/
def fetchEmptyPages : FetchSeq := fun _ => .ok ⟨"c", []⟩

/-- Two pages in ascending time order: pageA (2021-06-01) then pageB
(2021-07-01), then failures. -/
def fetchAB : FetchSeq :=
  fun k => if k = 0 then .ok pageA else if k = 1 then .ok pageB else .error .valueError

/-- The upstream whose single page holds one node without a timestamp: the
extracted record's created_time is the empty string. -/
def fetchNoTs : FetchSeq := fun _ => .ok ⟨"c", [⟨some rawNodeEmpty⟩]⟩

/-- The record extracted from the node with every field absent: note the
empty created_time. -/
def postEmpty : Post := ⟨.null, .null, "", .null, .null, .null, .null, .null, .null⟩

set_option maxHeartbeats 2000000 in
theorem Datetime.ltb_iff (a b : Datetime) :
    Datetime.ltb a b = true ↔
      (a.year < b.year ∨ (a.year = b.year ∧ (a.month < b.month ∨ (a.month = b.month ∧
       (a.day < b.day ∨ (a.day = b.day ∧ (a.hour < b.hour ∨ (a.hour = b.hour ∧
       (a.minute < b.minute ∨ (a.minute = b.minute ∧ a.second < b.second)))))))))) := by
  unfold Datetime.ltb
  split_ifs <;> simp only [decide_eq_true_eq, true_iff, false_iff] <;> omega

theorem Datetime.ltb_asymm (a b : Datetime) (h : Datetime.ltb a b = true) :
    Datetime.ltb b a = false := by
  cases hba : Datetime.ltb b a with
  | false => rfl
  | true =>
    have h1 := (Datetime.ltb_iff a b).mp h
    have h2 := (Datetime.ltb_iff b a).mp hba
    omega

theorem digitVal_digitChar (n : Nat) (h : n ≤ 9) : digitVal (digitChar n) = some n := by
  interval_cases n <;> rfl

theorem cfdDoy_le (days1 : Nat) : cfdDoy days1 ≤ 366 := by
  unfold cfdDoy cfdYoe cfdDoe cfdZ
  omega

theorem cfdMonth_bounds (days1 : Nat) : 1 ≤ cfdMonth days1 ∧ cfdMonth days1 ≤ 12 := by
  have h := cfdDoy_le days1
  unfold cfdMonth cfdMp
  split_ifs <;> omega

theorem cfdDay_bounds (days1 : Nat) : 1 ≤ cfdDay days1 ∧ cfdDay days1 ≤ 31 := by
  unfold cfdDay cfdMp
  omega

theorem cfdYear_bounds (days1 : Nat) (h1 : 364877 ≤ days1) (h2 : days1 ≤ 3652058) :
    1000 ≤ cfdYear days1 ∧ cfdYear days1 ≤ 9999 := by
  rcases Nat.lt_or_ge (days1 + 306) 438291 with hz | hz
  · unfold cfdYear cfdMonth cfdMp cfdDoy cfdYoe cfdDoe cfdZ
    split_ifs <;> omega
  · rcases Nat.lt_or_ge (days1 + 306) 3506328 with hz2 | hz2
    · unfold cfdYear cfdMonth cfdMp cfdDoy cfdYoe cfdDoe cfdZ
      split_ifs <;> omega
    · unfold cfdYear cfdMonth cfdMp cfdDoy cfdYoe cfdDoe cfdZ
      split_ifs <;> omega

theorem sanity_epoch : utcfromtimestamp 0 = .ok ⟨1970, 1, 1, 0, 0, 0⟩ := by rfl

theorem sanity_2021 : utcfromtimestamp 1609459200 = .ok ⟨2021, 1, 1, 0, 0, 0⟩ := by rfl

theorem sanity_leap_day : utcfromtimestamp 1582934400 = .ok ⟨2020, 2, 29, 0, 0, 0⟩ := by rfl

theorem sanity_min : utcfromtimestamp (-62135596800) = .ok ⟨1, 1, 1, 0, 0, 0⟩ := by rfl

theorem sanity_max : utcfromtimestamp 253402300799 = .ok ⟨9999, 12, 31, 23, 59, 59⟩ := by rfl

theorem sanity_format :
    convert_timestamp_to_string (some 1609459200) = .ok "2021-01-01 00:00:00" := by rfl

theorem sanity_parse :
    parseDatetime "2021-01-01 00:00:00" = some ⟨2021, 1, 1, 0, 0, 0⟩ := by rfl

theorem formatDatetime_toList (y mo da ho mi se : Nat) (hy1 : 1000 ≤ y) :
    (formatDatetime ⟨y, mo, da, ho, mi, se⟩).toList =
      [digitChar (y / 1000), digitChar (y / 100 % 10), digitChar (y / 10 % 10), digitChar (y % 10),
       '-', digitChar (mo / 10), digitChar (mo % 10), '-', digitChar (da / 10), digitChar (da % 10),
       ' ', digitChar (ho / 10), digitChar (ho % 10), ':', digitChar (mi / 10), digitChar (mi % 10),
       ':', digitChar (se / 10), digitChar (se % 10)] := by
  simp only [formatDatetime, yearChars, pad2, if_pos hy1]
  rfl

theorem parse_format (y mo da ho mi se : Nat)
    (hy1 : 1000 ≤ y) (hy2 : y ≤ 9999)
    (hmo1 : 1 ≤ mo) (hmo2 : mo ≤ 12) (hda1 : 1 ≤ da) (hda2 : da ≤ 31)
    (hho : ho ≤ 23) (hmi : mi ≤ 59) (hse : se ≤ 59) :
    parseDatetime (formatDatetime ⟨y, mo, da, ho, mi, se⟩) = some ⟨y, mo, da, ho, mi, se⟩ := by
  rw [parseDatetime, formatDatetime_toList y mo da ho mi se hy1]
  rw [parseChars]
  rw [if_pos ⟨rfl, rfl, rfl, rfl, rfl⟩]
  rw [digitVal_digitChar (y / 1000) (by omega), digitVal_digitChar (y / 100 % 10) (by omega),
      digitVal_digitChar (y / 10 % 10) (by omega), digitVal_digitChar (y % 10) (by omega),
      digitVal_digitChar (mo / 10) (by omega), digitVal_digitChar (mo % 10) (by omega),
      digitVal_digitChar (da / 10) (by omega), digitVal_digitChar (da % 10) (by omega),
      digitVal_digitChar (ho / 10) (by omega), digitVal_digitChar (ho % 10) (by omega),
      digitVal_digitChar (mi / 10) (by omega), digitVal_digitChar (mi % 10) (by omega),
      digitVal_digitChar (se / 10) (by omega), digitVal_digitChar (se % 10) (by omega)]
  rw [parseFields]
  rw [if_pos (by omega)]
  simp only [Option.some.injEq, Datetime.mk.injEq]
  omega

/-- C8 counterexample: the claim quantifies over every integer Unix
timestamp, but at T = 253402300800 (one second past 9999-12-31 23:59:59 UTC)
the conversion itself raises ValueError, so no round trip happens. -/
theorem claim8_cex :
    convert_timestamp_to_string (some 253402300800) = .error .valueError := by rfl

/-- C8 (amended): for every Unix timestamp T whose UTC datetime has a
four-digit year (1000-01-01 00:00:00 through 9999-12-31 23:59:59, that is
-30610224000 ≤ T ≤ 253402300799), converting T to the fixed string format
YYYY-MM-DD HH:MM:SS and reparsing that string with the same format yields
exactly the datetime denoting T truncated to whole seconds (T is already
whole seconds here; the reparsed datetime equals the datetime of T).
Outside that range the conversion raises (timestamps beyond the supported
datetime years), or the unpadded below-1000 year cannot satisfy the
four-digit year pattern of strptime. -/
theorem claim8_roundtrip (ts : Int) (h1 : -30610224000 ≤ ts) (h2 : ts ≤ 253402300799) :
    ∃ dt : Datetime, utcfromtimestamp ts = .ok dt ∧
      convert_timestamp_to_string (some ts) = .ok (formatDatetime dt) ∧
      parseDatetime (formatDatetime dt) = some dt := by
  have hr : ¬(ts < minTimestamp ∨ maxTimestamp < ts) := by
    unfold minTimestamp maxTimestamp
    omega
  have hd1 : 364877 ≤ (ts - minTimestamp).toNat / 86400 := by
    unfold minTimestamp
    omega
  have hd2 : (ts - minTimestamp).toNat / 86400 ≤ 3652058 := by
    unfold minTimestamp
    omega
  refine ⟨⟨cfdYear ((ts - minTimestamp).toNat / 86400),
           cfdMonth ((ts - minTimestamp).toNat / 86400),
           cfdDay ((ts - minTimestamp).toNat / 86400),
           (ts - minTimestamp).toNat % 86400 / 3600,
           (ts - minTimestamp).toNat % 86400 % 3600 / 60,
           (ts - minTimestamp).toNat % 86400 % 60⟩, ?_, ?_, ?_⟩
  · unfold utcfromtimestamp
    rw [if_neg hr]
  · have hcv : convert_timestamp_to_string (some ts) =
        (utcfromtimestamp ts).map formatDatetime := rfl
    rw [hcv]
    unfold utcfromtimestamp
    rw [if_neg hr]
    rfl
  · have hy := cfdYear_bounds ((ts - minTimestamp).toNat / 86400) hd1 hd2
    have hm := cfdMonth_bounds ((ts - minTimestamp).toNat / 86400)
    have hd := cfdDay_bounds ((ts - minTimestamp).toNat / 86400)
    exact parse_format _ _ _ _ _ _ hy.1 hy.2 hm.1 hm.2 hd.1 hd.2
      (by omega) (by omega) (by omega)

/-- Witness for C8 (amended) at the concrete timestamp 1609459200
(2021-01-01 00:00:00 UTC). -/
theorem claim8_witness :
    ∃ dt : Datetime, utcfromtimestamp 1609459200 = .ok dt ∧
      convert_timestamp_to_string (some 1609459200) = .ok (formatDatetime dt) ∧
      parseDatetime (formatDatetime dt) = some dt :=
  claim8_roundtrip 1609459200 (by omega) (by omega)

theorem convert_ok_of_range (n : RawNode)
    (hts : ∀ t, n.taken_at_timestamp = some t → minTimestamp ≤ t ∧ t ≤ maxTimestamp) :
    ∃ s, convert_timestamp_to_string n.taken_at_timestamp = .ok s ∧
      (n.taken_at_timestamp = none → s = "") := by
  cases h : n.taken_at_timestamp with
  | none => exact ⟨"", rfl, fun _ => rfl⟩
  | some t =>
    obtain ⟨h1, h2⟩ := hts t h
    obtain ⟨dt, hdt⟩ : ∃ dt, utcfromtimestamp t = .ok dt := by
      unfold utcfromtimestamp
      rw [if_neg (by omega)]
      exact ⟨_, rfl⟩
    refine ⟨formatDatetime dt, ?_, fun hc => Option.noConfusion hc⟩
    show (utcfromtimestamp t).map formatDatetime = _
    rw [hdt]
    rfl

theorem get_post_decomp (n : RawNode) (s : String)
    (hcv : convert_timestamp_to_string n.taken_at_timestamp = .ok s) :
    (∀ v, getCaption n = .ok v →
      get_post_from_node n = .ok
        { id := optStr n.id,
          owner_id := optStr (n.owner.bind OwnerStruct.id),
          created_time := s,
          typename := optStr n.typename,
          comment_count := optInt (n.edge_media_to_comment.bind CountStruct.count),
          like_count := optInt (n.edge_liked_by.bind CountStruct.count),
          video_view_count := optInt n.video_view_count,
          shortcode := optStr n.shortcode,
          caption := v }) ∧
    (∀ e, getCaption n = .error e → get_post_from_node n = .error e) := by
  constructor
  · intro v hv
    unfold get_post_from_node
    rw [hcv, hv]
    rfl
  · intro e he
    unfold get_post_from_node
    rw [hcv, he]
    rfl

theorem getCaption_cases (n : RawNode) :
    (n.edge_media_to_caption = none → getCaption n = .ok .null) ∧
    (∀ c, n.edge_media_to_caption = some c → c.edges = none → getCaption n = .ok .null) ∧
    (∀ c e l, n.edge_media_to_caption = some c → c.edges = some (e :: l) →
      getCaption n = .ok (match e.node with | none => .null | some cn => optStr cn.text)) ∧
    (∀ c, n.edge_media_to_caption = some c → c.edges = some [] →
      getCaption n = .error .indexError) := by
  refine ⟨?_, ?_, ?_, ?_⟩
  · intro h
    simp [getCaption, h]
  · intro c h he
    simp [getCaption, h, he]
  · intro c e l h he
    simp only [getCaption, h, he]
    cases e.node <;> rfl
  · intro c h he
    simp [getCaption, h, he]

/-- C3 counterexample: a Raw Node whose edge_media_to_caption is present
with an empty edges list.  The claim says the caption resolves to null and
no exception propagates; the code instead raises IndexError at the [0]
subscript (src/main.py line 42), so extraction of the node fails. -/
theorem claim3_cex :
    get_post_from_node
      ⟨none, none, none, none, none, none, none, none, some ⟨some []⟩⟩ =
      .error .indexError := by rfl

/-- C3 (amended): the caption field is the text of the first entry's node in
edge_media_to_caption.edges, and it is null whenever edge_media_to_caption
is absent, its edges key is absent, or the first entry lacks the node or
text fields - extraction succeeds without exception in all those
missing-structure cases (timestamps, when present, in datetime's supported
range).  However, when edges is present and is an empty list, the [0]
subscript raises IndexError and the extraction of the node fails (the
exception is caught later, at the page-fetch boundary of the loop). -/
theorem claim3_caption (n : RawNode)
    (hts : ∀ t, n.taken_at_timestamp = some t → minTimestamp ≤ t ∧ t ≤ maxTimestamp) :
    (n.edge_media_to_caption = none →
      ∃ p, get_post_from_node n = .ok p ∧ p.caption = .null) ∧
    (∀ c, n.edge_media_to_caption = some c → c.edges = none →
      ∃ p, get_post_from_node n = .ok p ∧ p.caption = .null) ∧
    (∀ c e l, n.edge_media_to_caption = some c → c.edges = some (e :: l) → e.node = none →
      ∃ p, get_post_from_node n = .ok p ∧ p.caption = .null) ∧
    (∀ c e l cn, n.edge_media_to_caption = some c → c.edges = some (e :: l) →
      e.node = some cn → cn.text = none →
      ∃ p, get_post_from_node n = .ok p ∧ p.caption = .null) ∧
    (∀ c e l cn t, n.edge_media_to_caption = some c → c.edges = some (e :: l) →
      e.node = some cn → cn.text = some t →
      ∃ p, get_post_from_node n = .ok p ∧ p.caption = .str t) ∧
    (∀ c, n.edge_media_to_caption = some c → c.edges = some [] →
      get_post_from_node n = .error .indexError) := by
  obtain ⟨s, hcv, -⟩ := convert_ok_of_range n hts
  have hd := get_post_decomp n s hcv
  obtain ⟨hgc1, hgc2, hgc3, hgc4⟩ := getCaption_cases n
  refine ⟨?_, ?_, ?_, ?_, ?_, ?_⟩
  · intro h
    exact ⟨_, hd.1 _ (hgc1 h), rfl⟩
  · intro c h he
    exact ⟨_, hd.1 _ (hgc2 c h he), rfl⟩
  · intro c e l h he hn
    refine ⟨_, hd.1 _ (hgc3 c e l h he), ?_⟩
    simp [hn]
  · intro c e l cn h he hn htext
    refine ⟨_, hd.1 _ (hgc3 c e l h he), ?_⟩
    simp [hn, htext, optStr]
  · intro c e l cn t h he hn htext
    refine ⟨_, hd.1 _ (hgc3 c e l h he), ?_⟩
    simp [hn, htext, optStr]
  · intro c h he
    exact hd.2 _ (hgc4 c h he)

/-- Witness for C3 (amended): a concrete node whose caption text is
present. -/
theorem claim3_witness :
    ∃ p, get_post_from_node
      ⟨none, none, none, none, none, none, none, none,
        some ⟨some [⟨some ⟨some "hello"⟩⟩]⟩⟩ = .ok p ∧
      p.caption = .str "hello" :=
  (claim3_caption _ (fun _ ht => Option.noConfusion ht)).2.2.2.2.1 _ _ _ _ _
    rfl rfl rfl rfl

/-- C7: for every Raw Node missing any subset of the expected nested fields
(and carrying a representable timestamp when one is present, and not the
present-but-empty caption edges list, which raises - see C3), the extractor
returns a record with exactly the nine fixed keys in the fixed source order,
each missing field null, except created_time which is the empty string when
the timestamp is absent. -/
theorem claim7_record (n : RawNode)
    (hts : ∀ t, n.taken_at_timestamp = some t → minTimestamp ≤ t ∧ t ≤ maxTimestamp)
    (hcap : ∀ c, n.edge_media_to_caption = some c → c.edges ≠ some []) :
    ∃ p, get_post_from_node n = .ok p ∧
      p.toPairs.map Prod.fst =
        ["id", "owner_id", "created_time", "typename", "comment_count",
         "like_count", "video_view_count", "shortcode", "caption"] ∧
      (n.id = none → p.id = .null) ∧
      (n.owner = none → p.owner_id = .null) ∧
      (∀ o, n.owner = some o → o.id = none → p.owner_id = .null) ∧
      (n.taken_at_timestamp = none → p.created_time = "") ∧
      (n.typename = none → p.typename = .null) ∧
      (n.edge_media_to_comment = none → p.comment_count = .null) ∧
      (∀ c, n.edge_media_to_comment = some c → c.count = none → p.comment_count = .null) ∧
      (n.edge_liked_by = none → p.like_count = .null) ∧
      (∀ c, n.edge_liked_by = some c → c.count = none → p.like_count = .null) ∧
      (n.video_view_count = none → p.video_view_count = .null) ∧
      (n.shortcode = none → p.shortcode = .null) ∧
      (n.edge_media_to_caption = none → p.caption = .null) := by
  obtain ⟨s, hcv, hse⟩ := convert_ok_of_range n hts
  obtain ⟨hgc1, hgc2, hgc3, hgc4⟩ := getCaption_cases n
  obtain ⟨v, hv, hvnull⟩ :
      ∃ v, getCaption n = .ok v ∧ (n.edge_media_to_caption = none → v = .null) := by
    cases hc : n.edge_media_to_caption with
    | none => exact ⟨_, hgc1 hc, fun _ => rfl⟩
    | some c =>
      cases he : c.edges with
      | none => exact ⟨_, hgc2 c hc he, fun hx => Option.noConfusion hx⟩
      | some l =>
        cases l with
        | nil => exact absurd he (hcap c hc)
        | cons e l' =>
          exact ⟨_, hgc3 c e l' hc he, fun hx => Option.noConfusion hx⟩
  refine ⟨_, (get_post_decomp n s hcv).1 v hv, rfl, ?_, ?_, ?_, ?_, ?_, ?_, ?_, ?_, ?_, ?_,
    ?_, ?_⟩
  · intro h
    simp [h, optStr]
  · intro h
    simp [h, optStr]
  · intro o h ho
    simp [h, ho, optStr]
  · intro h
    exact hse h
  · intro h
    simp [h, optStr]
  · intro h
    simp [h, optInt]
  · intro c h hc
    simp [h, hc, optInt]
  · intro h
    simp [h, optInt]
  · intro c h hc
    simp [h, hc, optInt]
  · intro h
    simp [h, optInt]
  · intro h
    simp [h, optStr]
  · intro h
    exact hvnull h

/-- Witness for C7 at the concrete node with every field absent. -/
theorem claim7_witness :
    ∃ p, get_post_from_node rawNodeEmpty = .ok p ∧
      p.toPairs.map Prod.fst =
        ["id", "owner_id", "created_time", "typename", "comment_count",
         "like_count", "video_view_count", "shortcode", "caption"] ∧
      p.id = .null ∧ p.created_time = "" ∧ p.caption = .null := by
  obtain ⟨p, h1, h2, h3, -, -, h6, -, -, -, -, -, -, -, h13⟩ :=
    claim7_record rawNodeEmpty (fun _ ht => Option.noConfusion ht)
      (fun _ hc => Option.noConfusion hc)
  exact ⟨p, h1, h2, h3 rfl, h6 rfl, h13 rfl⟩

theorem step_guard_false (fetch : FetchSeq) (minDT : Datetime) (acc : List Post)
    (cur : String) (e : Datetime) (k : Nat) (hg : Datetime.ltb minDT e = false) :
    get_posts_step fetch minDT (.running acc cur e k) = .done acc := by
  simp only [get_posts_step, hg, Bool.false_eq_true, if_false]

theorem step_fetch_error (fetch : FetchSeq) (minDT : Datetime) (acc : List Post)
    (cur : String) (e : Datetime) (k : Nat) (er : PyErr)
    (hg : Datetime.ltb minDT e = true) (hf : fetch k = .error er) :
    get_posts_step fetch minDT (.running acc cur e k) = .done acc := by
  simp only [get_posts_step, hg, hf, if_true]

theorem step_extract_error (fetch : FetchSeq) (minDT : Datetime) (acc : List Post)
    (cur : String) (e : Datetime) (k : Nat) (pd : PageData) (er : PyErr)
    (hg : Datetime.ltb minDT e = true) (hf : fetch k = .ok pd)
    (hm : exceptMap extractEdge pd.edges = .error er) :
    get_posts_step fetch minDT (.running acc cur e k) = .done acc := by
  simp only [get_posts_step, hg, hf, hm, if_true, List.isEmpty_nil, if_false]

theorem step_empty_page (fetch : FetchSeq) (minDT : Datetime) (acc : List Post)
    (cur : String) (e : Datetime) (k : Nat) (pd : PageData)
    (hg : Datetime.ltb minDT e = true) (hf : fetch k = .ok pd)
    (hm : exceptMap extractEdge pd.edges = .ok []) :
    get_posts_step fetch minDT (.running acc cur e k) = .done acc := by
  simp only [get_posts_step, hg, hf, hm, if_true, List.isEmpty_nil, if_false]

theorem step_parse_error (fetch : FetchSeq) (minDT : Datetime) (acc : List Post)
    (cur : String) (e : Datetime) (k : Nat) (pd : PageData) (p : Post) (ps : List Post)
    (er : PyErr)
    (hg : Datetime.ltb minDT e = true) (hf : fetch k = .ok pd)
    (hm : exceptMap extractEdge pd.edges = .ok (p :: ps))
    (hp : exceptMap parsePostTime (p :: ps) = .error er) :
    get_posts_step fetch minDT (.running acc cur e k) = .crashed er := by
  simp only [get_posts_step, hg, hf, hm, hp, pyMin, if_true, List.isEmpty_cons,
    Bool.false_eq_true, if_false]

theorem step_success (fetch : FetchSeq) (minDT : Datetime) (acc : List Post)
    (cur : String) (e : Datetime) (k : Nat) (pd : PageData) (p : Post) (ps : List Post)
    (d : Datetime) (ds : List Datetime)
    (hg : Datetime.ltb minDT e = true) (hf : fetch k = .ok pd)
    (hm : exceptMap extractEdge pd.edges = .ok (p :: ps))
    (hp : exceptMap parsePostTime (p :: ps) = .ok (d :: ds)) :
    get_posts_step fetch minDT (.running acc cur e k) =
      .running (acc ++ (p :: ps)) pd.end_cursor (minFold d ds) (k + 1) := by
  simp only [get_posts_step, hg, hf, hm, hp, pyMin, if_true, List.isEmpty_cons,
    Bool.false_eq_true, if_false]

theorem step_of_terminal (fetch : FetchSeq) (minDT : Datetime) (s : FetchState)
    (h : s.terminal) : get_posts_step fetch minDT s = s := by
  rcases h with ⟨r, rfl⟩ | ⟨e, rfl⟩ <;> rfl

theorem run_stable (fetch : FetchSeq) (minDT now : Datetime) (n : Nat)
    (h : (get_posts_run fetch minDT now n).terminal) :
    ∀ m, n ≤ m → get_posts_run fetch minDT now m = get_posts_run fetch minDT now n := by
  intro m hm
  induction m, hm using Nat.le_induction with
  | base => rfl
  | succ m _ ih =>
    show get_posts_step fetch minDT (get_posts_run fetch minDT now m) = _
    rw [ih]
    exact step_of_terminal fetch minDT _ h

theorem exceptMap_cons_ne_nil (f : α → Except PyErr β) (x : α) (xs : List α)
    (h : exceptMap f (x :: xs) = .ok []) : False := by
  cases hfx : f x with
  | error e => simp [exceptMap, hfx] at h
  | ok y =>
    cases hrest : exceptMap f xs with
    | error e => simp [exceptMap, hfx, hrest] at h
    | ok ys => simp [exceptMap, hfx, hrest] at h

theorem run_inv (fetch : FetchSeq) (minDT now : Datetime) :
    ∀ n acc cur e k, get_posts_run fetch minDT now n = .running acc cur e k →
      k = n ∧ acc = concatPages fetch n ∧ ∀ j, j < n → pagePosts fetch j ≠ [] := by
  intro n
  induction n with
  | zero =>
    intro acc cur e k h
    rw [get_posts_run] at h
    cases h
    exact ⟨rfl, rfl, fun j hj => absurd hj (Nat.not_lt_zero j)⟩
  | succ n ih =>
    intro acc cur e k h
    rw [get_posts_run] at h
    cases hs : get_posts_run fetch minDT now n with
    | done r =>
      rw [hs, step_of_terminal fetch minDT _ (Or.inl ⟨r, rfl⟩)] at h
      cases h
    | crashed e2 =>
      rw [hs, step_of_terminal fetch minDT _ (Or.inr ⟨e2, rfl⟩)] at h
      cases h
    | running acc' cur' e' k' =>
      obtain ⟨hk, hacc, hpages⟩ := ih acc' cur' e' k' hs
      rw [hs] at h
      rw [hk] at h
      cases hg : Datetime.ltb minDT e' with
      | false =>
        rw [step_guard_false fetch minDT acc' cur' e' n hg] at h
        cases h
      | true =>
        cases hf : fetch n with
        | error er =>
          rw [step_fetch_error fetch minDT acc' cur' e' n er hg hf] at h
          cases h
        | ok pd =>
          cases hm : exceptMap extractEdge pd.edges with
          | error er =>
            rw [step_extract_error fetch minDT acc' cur' e' n pd er hg hf hm] at h
            cases h
          | ok posts =>
            cases posts with
            | nil =>
              rw [step_empty_page fetch minDT acc' cur' e' n pd hg hf hm] at h
              cases h
            | cons p ps =>
              cases hp : exceptMap parsePostTime (p :: ps) with
              | error er =>
                rw [step_parse_error fetch minDT acc' cur' e' n pd p ps er hg hf hm hp] at h
                cases h
              | ok dts =>
                cases dts with
                | nil => exact absurd hp (fun hc => exceptMap_cons_ne_nil _ _ _ hc)
                | cons d ds =>
                  rw [step_success fetch minDT acc' cur' e' n pd p ps d ds hg hf hm hp] at h
                  cases h
                  refine ⟨rfl, ?_, ?_⟩
                  · rw [concatPages, ← hacc]
                    congr 1
                    simp [pagePosts, hf, hm]
                  · intro j hj
                    rcases Nat.lt_succ_iff_lt_or_eq.mp hj with hj' | rfl
                    · exact hpages j hj'
                    · simp [pagePosts, hf, hm]

theorem sanity_nodeA : get_post_from_node nodeA = .ok postA := by rfl

theorem sanity_parse_postA : parsePostTime postA = .ok dtA := by rfl

/-- C9: if the configured minimum date is strictly after the current time at
loop start, the while condition min_datetime < earliest_datetime_so_far is
already false at the first loop-top check (earliest defaults to now), so the
loop performs zero fetches - in particular at most one - and get_posts
returns the empty list.  The conclusion holds for every fetch sequence,
which shows no fetch outcome can influence it. -/
theorem claim9_immediate_stop (fetch : FetchSeq) (min_datetime now : Datetime)
    (h : Datetime.ltb now min_datetime = true) :
    get_posts_run fetch min_datetime now 1 = .done [] ∧
    ∀ m, 1 ≤ m → get_posts_run fetch min_datetime now m = .done [] := by
  have h1 : get_posts_run fetch min_datetime now 1 = .done [] := by
    rw [get_posts_run, get_posts_run]
    exact step_guard_false fetch min_datetime [] "" now 0
      (Datetime.ltb_asymm now min_datetime h)
  refine ⟨h1, fun m hm => ?_⟩
  rw [run_stable fetch min_datetime now 1 (Or.inl ⟨[], h1⟩) m hm, h1]

/-- Witness for C9: minimum date 2022-01-01, now 2021-06-01 12:00:00. -/
theorem claim9_witness :
    get_posts_run (fun _ => .ok pageA) now0 ⟨2021, 6, 1, 12, 0, 0⟩ 1 = .done [] ∧
    ∀ m, 1 ≤ m →
      get_posts_run (fun _ => .ok pageA) now0 ⟨2021, 6, 1, 12, 0, 0⟩ m = .done [] :=
  claim9_immediate_stop (fun _ => .ok pageA) now0 ⟨2021, 6, 1, 12, 0, 0⟩ (by decide)

theorem concatPages_ne_nil (fetch : FetchSeq) (k : Nat) (hk : 1 ≤ k)
    (h0 : pagePosts fetch 0 ≠ []) : concatPages fetch k ≠ [] := by
  induction k with
  | zero => omega
  | succ k ih =>
    intro hc
    rw [concatPages] at hc
    obtain ⟨hc1, hc2⟩ := List.append_eq_nil.mp hc
    cases Nat.eq_zero_or_pos k with
    | inl h0' =>
      subst h0'
      exact h0 hc2
    | inr hpos => exact ih hpos hc1

theorem export_posts_rows (p : Post) (ps : List Post) :
    ∃ rows, export_posts (p :: ps) = some rows ∧ rows.length = (p :: ps).length + 1 :=
  ⟨_, rfl, by simp [List.length_map]⟩

/-- C5: if the request or the JSON navigation raises on the second or any
later page (the loop having reached that page still running), the loop
breaks at once - no retry, no further fetches - the result is exactly the
records accumulated from the earlier pages, all of them, and exporting that
nonempty result produces its rows without raising. -/
theorem claim5_failure_preserves (fetch : FetchSeq) (min_datetime now : Datetime)
    (n : Nat) (acc : List Post) (cur : String) (e : Datetime) (k : Nat) (er : PyErr)
    (hrun : get_posts_run fetch min_datetime now n = .running acc cur e k)
    (hk : 1 ≤ k) (hg : Datetime.ltb min_datetime e = true)
    (hf : fetch k = .error er) :
    get_posts_run fetch min_datetime now (n + 1) = .done acc ∧
    (∀ m, n + 1 ≤ m → get_posts_run fetch min_datetime now m = .done acc) ∧
    acc = concatPages fetch k ∧
    ∃ rows, export_posts acc = some rows ∧ rows.length = acc.length + 1 := by
  obtain ⟨hkn, hacc, hpages⟩ := run_inv fetch min_datetime now n acc cur e k hrun
  subst hkn
  have hstep : get_posts_run fetch min_datetime now (k + 1) = .done acc := by
    rw [get_posts_run, hrun]
    exact step_fetch_error fetch min_datetime acc cur e k er hg hf
  have hne : acc ≠ [] := by
    rw [hacc]
    exact concatPages_ne_nil fetch k hk (hpages 0 hk)
  refine ⟨hstep, fun m hm => ?_, hacc, ?_⟩
  · rw [run_stable fetch min_datetime now (k + 1) (Or.inl ⟨acc, hstep⟩) m hm, hstep]
  · cases acc with
    | nil => exact absurd rfl hne
    | cons p ps => exact export_posts_rows p ps

/-- Witness for C5: the failure arrives on the second page; the single record
of the first page survives and exports as two rows. -/
theorem claim5_witness :
    get_posts_run fetchFailSecond minDT0 now0 2 = .done [postA] ∧
    (∀ m, 2 ≤ m → get_posts_run fetchFailSecond minDT0 now0 m = .done [postA]) ∧
    [postA] = concatPages fetchFailSecond 1 ∧
    ∃ rows, export_posts [postA] = some rows ∧ rows.length = [postA].length + 1 :=
  claim5_failure_preserves fetchFailSecond minDT0 now0 1 [postA] "curA" dtA 1 .valueError
    (by rfl) (by decide) (by decide) (by rfl)

/-- C10 (implicit): any exception raised while extracting any node of a page
- the extraction happens inside the try block - is caught at the page-fetch
boundary: the loop breaks, no record of the failing page enters the result
(the append happens only after the whole page extracts), all records of
earlier pages are retained, and exporting them raises nothing (none is the
no-write case for an empty result). -/
theorem claim10_extraction_atomic (fetch : FetchSeq) (min_datetime now : Datetime)
    (n : Nat) (acc : List Post) (cur : String) (e : Datetime) (k : Nat)
    (pd : PageData) (er : PyErr)
    (hrun : get_posts_run fetch min_datetime now n = .running acc cur e k)
    (hg : Datetime.ltb min_datetime e = true)
    (hf : fetch k = .ok pd)
    (hm : exceptMap extractEdge pd.edges = .error er) :
    get_posts_run fetch min_datetime now (n + 1) = .done acc ∧
    (∀ m, n + 1 ≤ m → get_posts_run fetch min_datetime now m = .done acc) ∧
    acc = concatPages fetch k ∧
    (acc = [] → export_posts acc = none) ∧
    (acc ≠ [] → ∃ rows, export_posts acc = some rows ∧ rows.length = acc.length + 1) := by
  obtain ⟨hkn, hacc, hpages⟩ := run_inv fetch min_datetime now n acc cur e k hrun
  subst hkn
  have hstep : get_posts_run fetch min_datetime now (k + 1) = .done acc := by
    rw [get_posts_run, hrun]
    exact step_extract_error fetch min_datetime acc cur e k pd er hg hf hm
  refine ⟨hstep, fun m hm2 => ?_, hacc, fun he => by rw [he]; rfl, fun hne => ?_⟩
  · rw [run_stable fetch min_datetime now (k + 1) (Or.inl ⟨acc, hstep⟩) m hm2, hstep]
  · cases acc with
    | nil => exact absurd rfl hne
    | cons p ps => exact export_posts_rows p ps

/-- Witness for C10: the AttributeError page is the second one; the first
page's record is retained and exported. -/
theorem claim10_witness :
    get_posts_run fetchBadNode minDT0 now0 2 = .done [postA] ∧
    (∀ m, 2 ≤ m → get_posts_run fetchBadNode minDT0 now0 m = .done [postA]) ∧
    [postA] = concatPages fetchBadNode 1 ∧
    ([postA] = [] → export_posts [postA] = none) ∧
    ([postA] ≠ [] → ∃ rows, export_posts [postA] = some rows ∧
      rows.length = [postA].length + 1) :=
  claim10_extraction_atomic fetchBadNode minDT0 now0 1 [postA] "curA" dtA 1
    ⟨"curX", [⟨none⟩]⟩ .attributeError (by rfl) (by decide) (by rfl) (by rfl)

/-- C4: the fetch loop terminates in finitely many iterations - at most one
iteration past N - for every upstream sequence whose pages from index N on
are empty or contain only records with empty (non-parseable) created_time,
even if the date boundary is never crossed.  Termination is reaching a
terminal state: either a break out of the loop (done) or the uncaught
ValueError an all-unparseable page raises outside the try block (crashed);
in both cases the while loop stops and the state never changes again. -/
theorem claim4_termination (fetch : FetchSeq) (min_datetime now : Datetime) (N : Nat)
    (h : ∀ k, N ≤ k → ∀ pd, fetch k = .ok pd →
      pd.edges = [] ∨ ∀ posts, exceptMap extractEdge pd.edges = .ok posts →
        ∀ p, p ∈ posts → p.created_time = "") :
    (get_posts_run fetch min_datetime now (N + 1)).terminal ∧
    ∀ m, N + 1 ≤ m →
      get_posts_run fetch min_datetime now m = get_posts_run fetch min_datetime now (N + 1) := by
  have hterm : (get_posts_run fetch min_datetime now (N + 1)).terminal := by
    cases hs : get_posts_run fetch min_datetime now N with
    | done r =>
      rw [get_posts_run, hs, step_of_terminal fetch min_datetime _ (Or.inl ⟨r, rfl⟩)]
      exact Or.inl ⟨r, rfl⟩
    | crashed e2 =>
      rw [get_posts_run, hs, step_of_terminal fetch min_datetime _ (Or.inr ⟨e2, rfl⟩)]
      exact Or.inr ⟨e2, rfl⟩
    | running acc cur e k =>
      obtain ⟨hkn, -, -⟩ := run_inv fetch min_datetime now N acc cur e k hs
      rw [get_posts_run, hs]
      cases hg : Datetime.ltb min_datetime e with
      | false =>
        rw [step_guard_false fetch min_datetime acc cur e k hg]
        exact Or.inl ⟨acc, rfl⟩
      | true =>
        cases hf : fetch k with
        | error er =>
          rw [step_fetch_error fetch min_datetime acc cur e k er hg hf]
          exact Or.inl ⟨acc, rfl⟩
        | ok pd =>
          cases hm : exceptMap extractEdge pd.edges with
          | error er =>
            rw [step_extract_error fetch min_datetime acc cur e k pd er hg hf hm]
            exact Or.inl ⟨acc, rfl⟩
          | ok posts =>
            cases posts with
            | nil =>
              rw [step_empty_page fetch min_datetime acc cur e k pd hg hf hm]
              exact Or.inl ⟨acc, rfl⟩
            | cons p ps =>
              rcases h k (by omega) pd hf with hemp | hall
              · rw [hemp] at hm
                simp [exceptMap] at hm
              · have hp0 : parsePostTime p = .error .valueError := by
                  have hpc : p.created_time = "" :=
                    hall (p :: ps) hm p (List.mem_cons_self p ps)
                  unfold parsePostTime
                  rw [hpc]
                  rfl
                have hperr : exceptMap parsePostTime (p :: ps) = .error .valueError := by
                  simp [exceptMap, hp0]
                rw [step_parse_error fetch min_datetime acc cur e k pd p ps .valueError
                  hg hf hm hperr]
                exact Or.inr ⟨.valueError, rfl⟩
  exact ⟨hterm, fun m hm => run_stable fetch min_datetime now (N + 1) hterm m hm⟩

/-- Witness for C4 with N = 0: every page is empty, so the loop is terminal
after one iteration and stays there. -/
theorem claim4_witness :
    (get_posts_run fetchEmptyPages minDT0 now0 1).terminal ∧
    ∀ m, 1 ≤ m →
      get_posts_run fetchEmptyPages minDT0 now0 m =
        get_posts_run fetchEmptyPages minDT0 now0 1 :=
  claim4_termination fetchEmptyPages minDT0 now0 0
    (fun k _ pd hpd => by cases hpd; exact Or.inl rfl)

/-- C6: the exporter called with an empty result set performs no file write
at all (modelled by `none`: the with-open block is never entered); called
with N > 0 records it produces exactly N + 1 rows - a header row in the
exact key order of the first record, then one row of rendered values per
record, in input order - and every row, header included, has exactly the 9
pipe-delimited fields. -/
theorem claim6_exporter :
    export_posts [] = none ∧
    ∀ (p : Post) (ps : List Post),
      ∃ rows, export_posts (p :: ps) = some rows ∧
        rows.length = (p :: ps).length + 1 ∧
        rows.head? = some (p.toPairs.map Prod.fst) ∧
        rows.tail = (p :: ps).map (fun m => m.toPairs.map fun kv => renderVal kv.2) ∧
        ∀ r, r ∈ rows → r.length = 9 := by
  refine ⟨rfl, fun p ps => ⟨_, rfl, ?_, rfl, rfl, ?_⟩⟩
  · simp [List.length_map]
  · intro r hr
    rcases List.mem_cons.mp hr with rfl | hr'
    · rfl
    · obtain ⟨m, -, rfl⟩ := List.mem_map.mp hr'
      rfl

/-- Witness for C6 at one concrete record. -/
theorem claim6_witness :
    ∃ rows, export_posts [postA] = some rows ∧
      rows.length = [postA].length + 1 ∧
      rows.head? = some (postA.toPairs.map Prod.fst) ∧
      rows.tail = [postA].map (fun m => m.toPairs.map fun kv => renderVal kv.2) ∧
      ∀ r, r ∈ rows → r.length = 9 :=
  claim6_exporter.2 postA []

/-- C1 counterexample: after appending the second batch, the loop state's
earliest timestamp is dtB - the minimum over the LATEST page only (the
comprehension at src/main.py line 122 ranges over `posts`, not `all_posts`)
- while the minimum of the parsed created_time values across the entire
accumulated result set [postA, postB] is dtA, and dtB differs from dtA.  So
the recomputed value is not the accumulated-set minimum the claim
describes. -/
theorem claim1_cex :
    get_posts_run fetchAB minDT0 now0 2 = .running [postA, postB] "curB" dtB 2 ∧
    exceptMap parsePostTime [postA, postB] = .ok [dtA, dtB] ∧
    pyMin [dtA, dtB] = .ok dtA ∧
    dtB ≠ dtA := by
  refine ⟨by decide, by rfl, by rfl, by decide⟩

/-- C1 (amended): after appending each fetched batch, the loop recomputes
the earliest timestamp as Python's min of the strptime-parsed created_time
values of the latest batch only - the new value depends only on that batch,
replacing rather than narrowing the previous value (the str-instance filter
keeps every record, created_time being always a string) - and the loop
stops, at the next loop-top check, when the configured minimum date is not
earlier than that value. -/
theorem claim1_latest_page_min :
    (∀ (fetch : FetchSeq) (min_datetime : Datetime) (acc : List Post) (cur : String)
       (e : Datetime) (k : Nat) (pd : PageData) (p : Post) (ps : List Post)
       (d : Datetime) (ds : List Datetime),
      Datetime.ltb min_datetime e = true →
      fetch k = .ok pd →
      exceptMap extractEdge pd.edges = .ok (p :: ps) →
      exceptMap parsePostTime (p :: ps) = .ok (d :: ds) →
      pyMin (d :: ds) = .ok (minFold d ds) ∧
      get_posts_step fetch min_datetime (.running acc cur e k) =
        .running (acc ++ (p :: ps)) pd.end_cursor (minFold d ds) (k + 1)) ∧
    (∀ (fetch : FetchSeq) (min_datetime : Datetime) (acc : List Post) (cur : String)
       (e : Datetime) (k : Nat),
      Datetime.ltb min_datetime e = false →
      get_posts_step fetch min_datetime (.running acc cur e k) = .done acc) :=
  ⟨fun fetch mdt acc cur e k pd p ps d ds hg hf hm hp =>
    ⟨rfl, step_success fetch mdt acc cur e k pd p ps d ds hg hf hm hp⟩,
   fun fetch mdt acc cur e k hg => step_guard_false fetch mdt acc cur e k hg⟩

/-- Witness for C1 (amended): the second batch replaces the earliest value
with its own minimum dtB, independently of the accumulated [postA]. -/
theorem claim1_witness :
    pyMin [dtB] = .ok (minFold dtB []) ∧
    get_posts_step fetchAB minDT0 (.running [postA] "curA" dtA 1) =
      .running ([postA] ++ [postB]) pageB.end_cursor (minFold dtB []) 2 :=
  claim1_latest_page_min.1 fetchAB minDT0 [postA] "curA" dtA 1 pageB postB [] dtB []
    (by decide) (by rfl) (by rfl) (by rfl)

theorem parse_empty_created (q : Post) (h : q.created_time = "") :
    parsePostTime q = .error .valueError := by
  unfold parsePostTime
  rw [h]
  rfl

theorem exceptMap_error_of_mem (f : α → Except PyErr β) (l : List α) (x : α)
    (hx : x ∈ l) (e : PyErr) (hfx : f x = .error e) :
    ∃ er, exceptMap f l = .error er := by
  induction l with
  | nil => cases hx
  | cons y ys ih =>
    cases hfy : f y with
    | error e2 => exact ⟨e2, by simp [exceptMap, hfy]⟩
    | ok b =>
      rcases List.mem_cons.mp hx with rfl | hx'
      · rw [hfy] at hfx
        cases hfx
      · obtain ⟨er, her⟩ := ih hx'
        exact ⟨er, by simp [exceptMap, hfy, her]⟩

/-- C2 counterexample: a page whose record has created_time equal to the
empty string.  The claim says such records are excluded from the minimum
computation and no exception escapes the loop; instead the
isinstance(...,str) filter keeps the record (created_time is always a str),
strptime("") raises ValueError outside the try block, and the exception
escapes get_posts and main: the run crashes on the very first page and
nothing is exported. -/
theorem claim2_cex :
    get_posts_run fetchNoTs minDT0 now0 1 = .crashed .valueError := by decide

/-- C2 (amended): records whose created_time is the empty string are NOT
excluded from the earliest-timestamp computation - the comprehension's
isinstance(...,str) filter keeps every record because created_time is always
a string - and processing a page that contains such a record raises
ValueError at the strptime call, which sits outside the try block: the
exception escapes the fetch loop (and main), the accumulated records are
lost and no export happens.  Only request/JSON/extraction failures inside
the try block are absorbed at the loop boundary. -/
theorem claim2_empty_created_crashes (fetch : FetchSeq) (min_datetime now : Datetime)
    (n : Nat) (acc : List Post) (cur : String) (e : Datetime) (k : Nat)
    (pd : PageData) (p : Post) (ps : List Post)
    (hrun : get_posts_run fetch min_datetime now n = .running acc cur e k)
    (hg : Datetime.ltb min_datetime e = true)
    (hf : fetch k = .ok pd)
    (hm : exceptMap extractEdge pd.edges = .ok (p :: ps))
    (hbad : ∃ q, q ∈ p :: ps ∧ q.created_time = "") :
    ∃ er, get_posts_run fetch min_datetime now (n + 1) = .crashed er ∧
      ∀ m, n + 1 ≤ m → get_posts_run fetch min_datetime now m = .crashed er := by
  obtain ⟨q, hq, hqe⟩ := hbad
  obtain ⟨er, her⟩ :=
    exceptMap_error_of_mem parsePostTime (p :: ps) q hq .valueError
      (parse_empty_created q hqe)
  have hstep : get_posts_run fetch min_datetime now (n + 1) = .crashed er := by
    rw [get_posts_run, hrun]
    exact step_parse_error fetch min_datetime acc cur e k pd p ps er hg hf hm her
  refine ⟨er, hstep, fun m hm2 => ?_⟩
  rw [run_stable fetch min_datetime now (n + 1) (Or.inr ⟨er, hstep⟩) m hm2, hstep]

/-- Witness for C2 (amended) on the concrete first page of fetchNoTs. -/
theorem claim2_witness :
    ∃ er, get_posts_run fetchNoTs minDT0 now0 1 = .crashed er ∧
      ∀ m, 1 ≤ m → get_posts_run fetchNoTs minDT0 now0 m = .crashed er :=
  claim2_empty_created_crashes fetchNoTs minDT0 now0 0 [] "" now0 0
    ⟨"c", [⟨some rawNodeEmpty⟩]⟩ postEmpty [] (by rfl) (by decide) (by rfl) (by rfl)
    ⟨postEmpty, List.mem_cons_self postEmpty [], rfl⟩
